import Mathlib

/-!
Verification of the intents-framework settlement core.

The development shallowly embeds the `Base7683` settlement contract
(orders, statuses, resolve/open/fill), the solver configuration helper
`getMultiProvider`, and the nonce-keeper sequencing contract.  Machine
integers (`uint32`, `uint256`, `bytes32`, addresses) are modelled as `Nat`;
a Solidity revert is modelled as `Except.error`, so an operation that fails
returns no state at all, mirroring the EVM's transaction-level rollback.
-/

namespace Intents

/-- Canonical chain-agnostic order record (`struct OrderData`).  `bytes32`
token/party references and `uint` amounts, nonces, domains and deadlines are
all modelled as `Nat`. -/
structure OrderData where
  sender : Nat
  recipient : Nat
  inputToken : Nat
  outputToken : Nat
  amountIn : Nat
  amountOut : Nat
  senderNonce : Nat
  originDomain : Nat
  destinationDomain : Nat
  fillDeadline : Nat
  deriving DecidableEq, Repr

/-- Errors declared by `Base7683`, together with the reverts of its
collaborators (codec decode failure, missing counterpart, failed ERC20
transfer). -/
inductive SettleError where
  | InvalidOrderType
  | InvalidSenderNonce
  | InvalidOriginDomain
  | InvalidOrderId
  | OrderExpired
  | InvalidOrderDomain
  | InvalidOrderStatus
  | DecodeFailure
  | UnknownCounterpart
  | TransferFromFailed
  deriving DecidableEq, Repr

/-- Modelled from the spec: the order wire format of `libs/OrderEncoder.sol`
(not among the sources).  Raw bytes either are the canonical encoding of an
`OrderData` record or are malformed; encode and decode are exact inverses. -/
inductive RawBytes where
  | valid (od : OrderData)
  | malformed
  deriving DecidableEq, Repr

/-- Modelled from the spec: the fixed type tag returned by
`OrderEncoder.orderDataType()`. -/
def OrderEncoder.orderDataType : Nat := 7683

/-- Modelled from the spec: canonical encoding of an order record. -/
def OrderEncoder.encode (od : OrderData) : RawBytes := RawBytes.valid od

/-- Modelled from the spec: decoding rejects malformed bytes and recovers the
encoded record otherwise. -/
def OrderEncoder.decode : RawBytes → Except SettleError OrderData
  | RawBytes.valid od => Except.ok od
  | RawBytes.malformed => Except.error SettleError.DecodeFailure

/-- An order id.  Modelled from the spec: `OrderEncoder.id` is a
deterministic collision-resistant digest depending on every field of the
record, so it is modelled as an injective function and the id type as the
record itself. -/
abbrev OrderId := OrderData

/-- Modelled from the spec: the deterministic order-id derivation. -/
def OrderEncoder.id (od : OrderData) : OrderId := od

/-- Per-chain order status (`enum OrderStatus`). -/
inductive OrderStatus where
  | UNFILLED
  | OPENED
  | FILLED
  | SETTLED
  | REFUNDED
  deriving DecidableEq, Repr

/-- ERC-7683 `Output` leg (modelled from the spec; `IERC7683.sol` is not among
the sources). -/
structure Output where
  token : Nat
  amount : Nat
  recipient : Nat
  chainId : Nat
  deriving DecidableEq, Repr

/-- ERC-7683 `FillInstruction` (modelled from the spec). -/
structure FillInstruction where
  destinationChainId : Nat
  destinationSettler : Nat
  originData : RawBytes
  deriving DecidableEq, Repr

/-- ERC-7683 `ResolvedCrossChainOrder` (modelled from the spec). -/
structure ResolvedCrossChainOrder where
  user : Nat
  originChainId : Nat
  openDeadline : Nat
  fillDeadline : Nat
  minReceived : List Output
  maxSpent : List Output
  fillInstructions : List FillInstruction
  deriving DecidableEq, Repr

/-- ERC-7683 `OnchainCrossChainOrder`, restricted to the fields `Base7683`
reads (modelled from the spec). -/
structure OnchainCrossChainOrder where
  fillDeadline : Nat
  orderDataType : Nat
  orderData : RawBytes
  deriving DecidableEq, Repr

/-- ERC-7683 `GaslessCrossChainOrder`, restricted to the fields `Base7683`
reads (modelled from the spec). -/
structure GaslessCrossChainOrder where
  user : Nat
  openDeadline : Nat
  fillDeadline : Nat
  orderDataType : Nat
  orderData : RawBytes
  deriving DecidableEq, Repr

/-- Pointwise update of a mapping, as a Solidity storage write. -/
def mapUpd {α β : Type} [DecidableEq α] (f : α → β) (k : α) (v : β) : α → β :=
  fun x => if x = k then v else f x

/-- The storage of one chain's `Base7683` instance, together with the
read-only collaborators it consults: the immutable local domain, the domain
registry backing `_mustHaveRemoteCounterpart`, the contract's own address and
the ERC20 balance ledger. -/
structure ChainState where
  localDomain : Nat
  counterpart : Nat → Option Nat
  settler : Nat
  senderNonce : Nat → Nat
  orders : OrderId → Option OrderData
  orderStatus : OrderId → OrderStatus
  orderFiller : OrderId → Option Nat

/-- Token balances live beside the settlement storage: `balances token holder`
is the holder's balance of the token (modelled from the spec: the ledger is an
external collaborator). -/
structure LedgerState where
  chain : ChainState
  balances : Nat → Nat → Nat

/-- Modelled from the spec: the virtual `_mustHaveRemoteCounterpart` lookup
backed by the Domain Registry; it reverts when no counterpart settler is
registered for the domain. -/
def _mustHaveRemoteCounterpart (s : ChainState) (domain : Nat) :
    Except SettleError Nat :=
  match s.counterpart domain with
  | some a => Except.ok a
  | none => Except.error SettleError.UnknownCounterpart

/-- Function `_getOrderId` of `Base7683`. -/
def _getOrderId (od : OrderData) : OrderId := OrderEncoder.id od

/-- Modelled from the spec: `SafeERC20.safeTransferFrom`, which moves `amount`
of `token` from `src` to `dst` and reverts when the transfer cannot
complete. -/
def safeTransferFrom (l : LedgerState) (token src dst amount : Nat) :
    Except SettleError LedgerState :=
  if amount ≤ l.balances token src then
    let debited := mapUpd (l.balances token) src (l.balances token src - amount)
    let credited := mapUpd debited dst (debited dst + amount)
    Except.ok { l with balances := mapUpd l.balances token credited }
  else
    Except.error SettleError.TransferFromFailed

/-- Function `_resolvedOrder` of `Base7683`: validates the type tag, decodes the raw
bytes, checks origin domain and sender nonce, looks up the destination
counterpart, overrides the decoded record's `fillDeadline` with the supplied
one and assembles the `ResolvedCrossChainOrder`. -/
def _resolvedOrder (s : ChainState) (_orderType _sender : Nat)
    (_orderData : RawBytes) (_openDeadline _fillDeadline : Nat) :
    Except SettleError (ResolvedCrossChainOrder × OrderData) :=
  if _orderType ≠ OrderEncoder.orderDataType then
    Except.error SettleError.InvalidOrderType
  else
    match OrderEncoder.decode _orderData with
    | Except.error e => Except.error e
    | Except.ok orderData0 =>
      if orderData0.originDomain ≠ s.localDomain then
        Except.error SettleError.InvalidOriginDomain
      else if orderData0.senderNonce ≠ s.senderNonce _sender then
        Except.error SettleError.InvalidSenderNonce
      else
        match _mustHaveRemoteCounterpart s orderData0.destinationDomain with
        | Except.error e => Except.error e
        | Except.ok destinationSettler =>
          let orderData : OrderData := { orderData0 with fillDeadline := _fillDeadline }
          Except.ok
            ({ user := _sender
               originChainId := s.localDomain
               openDeadline := _openDeadline
               fillDeadline := _fillDeadline
               minReceived := [{ token := orderData.inputToken
                                 amount := orderData.amountIn
                                 recipient := 0
                                 chainId := orderData.originDomain }]
               maxSpent := [{ token := orderData.outputToken
                              amount := orderData.amountOut
                              recipient := orderData.recipient
                              chainId := orderData.destinationDomain }]
               fillInstructions := [{ destinationChainId := orderData.destinationDomain
                                      destinationSettler := destinationSettler
                                      originData := _orderData }] },
             orderData)

/-- Function `fill` of `Base7683`: decodes the origin data, checks the supplied id
against the recomputed one, performs the deadline comparison exactly as the
source writes it (`orderData.fillDeadline > block.timestamp` reverts with
`OrderExpired`), checks the destination domain, the origin counterpart and
the `UNFILLED` status, then records the order, marks it `FILLED`, records the
filler and pays the recipient from the caller. -/
def fill (l : LedgerState) (caller : Nat) (_orderId : OrderId)
    (_originData : RawBytes) (timestamp : Nat) : Except SettleError LedgerState :=
  match OrderEncoder.decode _originData with
  | Except.error e => Except.error e
  | Except.ok orderData =>
    if _orderId ≠ _getOrderId orderData then
      Except.error SettleError.InvalidOrderId
    else if orderData.fillDeadline > timestamp then
      Except.error SettleError.OrderExpired
    else if orderData.destinationDomain ≠ l.chain.localDomain then
      Except.error SettleError.InvalidOrderDomain
    else
      match _mustHaveRemoteCounterpart l.chain orderData.originDomain with
      | Except.error e => Except.error e
      | Except.ok _ =>
        if l.chain.orderStatus _orderId ≠ OrderStatus.UNFILLED then
          Except.error SettleError.InvalidOrderStatus
        else
          safeTransferFrom
            { l with chain :=
              { l.chain with
                orders := mapUpd l.chain.orders _orderId (some orderData)
                orderStatus := mapUpd l.chain.orderStatus _orderId OrderStatus.FILLED
                orderFiller := mapUpd l.chain.orderFiller _orderId (some caller) } }
            orderData.outputToken caller orderData.recipient orderData.amountOut

/-- Function `openFor` of `Base7683`: resolves the gasless order, then records the
resolved record under its id, marks it `OPENED` and bumps the user's sender
nonce (no token movement: the source marks the funding logic as TODO). -/
def openFor (l : LedgerState) (order : GaslessCrossChainOrder) :
    Except SettleError (LedgerState × OrderId × ResolvedCrossChainOrder) :=
  match _resolvedOrder l.chain order.orderDataType order.user order.orderData
      order.openDeadline order.fillDeadline with
  | Except.error e => Except.error e
  | Except.ok (resolvedOrder, orderData) =>
    let orderId := _getOrderId orderData
    Except.ok
      ({ l with chain :=
         { l.chain with
           orders := mapUpd l.chain.orders orderId (some orderData)
           orderStatus := mapUpd l.chain.orderStatus orderId OrderStatus.OPENED
           senderNonce := mapUpd l.chain.senderNonce order.user
             (l.chain.senderNonce order.user + 1) } },
       orderId, resolvedOrder)

/-- Function `open` of `Base7683` (`open` is a Lean keyword, hence the name): resolves
the onchain order with `type(uint32).max` as open deadline, records it under
its id, marks it `OPENED`, bumps the caller's sender nonce and pulls
`amountIn` of the input token from the caller into the contract; a failing
transfer reverts the whole call. -/
def openOrder (l : LedgerState) (caller : Nat) (order : OnchainCrossChainOrder) :
    Except SettleError (LedgerState × OrderId × ResolvedCrossChainOrder) :=
  match _resolvedOrder l.chain order.orderDataType caller order.orderData
      (2 ^ 32 - 1) order.fillDeadline with
  | Except.error e => Except.error e
  | Except.ok (resolvedOrder, orderData) =>
    let orderId := _getOrderId orderData
    match safeTransferFrom
        { l with chain :=
          { l.chain with
            orders := mapUpd l.chain.orders orderId (some orderData)
            orderStatus := mapUpd l.chain.orderStatus orderId OrderStatus.OPENED
            senderNonce := mapUpd l.chain.senderNonce caller
              (l.chain.senderNonce caller + 1) } }
        orderData.inputToken caller l.chain.settler orderData.amountIn with
    | Except.error e => Except.error e
    | Except.ok l2 => Except.ok (l2, orderId, resolvedOrder)

/-- JavaScript truthiness of an optional string configuration value: an absent
value and the empty string are falsy, every other string is truthy. -/
def jsTruthy : Option String → Bool
  | none => false
  | some v => v != ""

/-- Function `ensure0x` of the hyperlane utils (modelled from the spec's interface
boundary): prefixes `0x` when it is missing. -/
def ensure0x (s : String) : String :=
  if s.startsWith "0x" then s else "0x" ++ s

/-- The signer built by `getMultiProvider`: either directly from a raw private
key (the `NonceKeeperWallet` constructor) or derived from a mnemonic phrase
(`NonceKeeperWallet.fromMnemonic`).  The wallet internals are opaque here;
only which credential fed it matters to the configuration logic. -/
inductive NonceKeeperWallet where
  | fromPrivateKey (key : String)
  | fromMnemonic (mnemonic : String)
  deriving DecidableEq, Repr

/-- The fatal startup configuration error of `getMultiProvider`. -/
inductive ConfigError where
  | MissingCredential
  deriving DecidableEq, Repr

/-- Function `getMultiProvider` of the solver: throws when neither `PRIVATE_KEY` nor
`MNEMONIC` is truthy, otherwise builds the shared signer from the private key
when present and from the mnemonic otherwise.  The returned value is the
wallet installed as the shared signer. -/
def getMultiProvider (PRIVATE_KEY MNEMONIC : Option String) :
    Except ConfigError NonceKeeperWallet :=
  if !jsTruthy PRIVATE_KEY && !jsTruthy MNEMONIC then
    Except.error ConfigError.MissingCredential
  else if jsTruthy PRIVATE_KEY then
    Except.ok (NonceKeeperWallet.fromPrivateKey (ensure0x (PRIVATE_KEY.getD "")))
  else
    Except.ok (NonceKeeperWallet.fromMnemonic (MNEMONIC.getD ""))

/-- Modelled from the spec: the per-(signer, chain) sequence cache of the
`NonceKeeperWallet` (its source file is not among the sources).  `next` is
the cached next unused sequence number; concurrent callers are serialized by
the keeper, so behaviour is that of a sequence of atomic cache operations. -/
structure NonceCache where
  next : Nat
  deriving DecidableEq, Repr

/-- Modelled from the spec: one serialized allocation returns the cached
number and advances the cache by one. -/
def NonceCache.allocate (c : NonceCache) : Nat × NonceCache :=
  (c.next, { next := c.next + 1 })

/-- Modelled from the spec: one serialized submission attempt; on acceptance
the allocated number is consumed and the cache advances, on failure before
acceptance the reserved number is released and the cache does not advance. -/
def NonceCache.submit (c : NonceCache) (accepted : Bool) :
    Option Nat × NonceCache :=
  if accepted then (some c.next, { next := c.next + 1 }) else (none, c)

/-- Modelled from the spec: `n` serialized allocations in a row, the model of
`n` concurrent requests for the same (signer, chain) pair. -/
def NonceCache.allocateN : NonceCache → Nat → List Nat × NonceCache
  | c, 0 => ([], c)
  | c, n + 1 =>
    let (v, c1) := c.allocate
    let (vs, c2) := NonceCache.allocateN c1 n
    (v :: vs, c2)

/-- Concrete order used in witnesses: destination side of a transfer of 100
in for 95 out, embedded fill deadline 10. -/
def odA : OrderData :=
  { sender := 1
    recipient := 2
    inputToken := 3
    outputToken := 4
    amountIn := 100
    amountOut := 95
    senderNonce := 3
    originDomain := 1
    destinationDomain := 2
    fillDeadline := 10 }

/-- Concrete destination-chain ledger (local domain 2, counterpart registered
for domain 1, every order unfilled, ample balances). -/
def ledgerDest : LedgerState :=
  { chain :=
    { localDomain := 2
      counterpart := fun d => if d = 1 then some 77 else none
      settler := 99
      senderNonce := fun _ => 0
      orders := fun _ => none
      orderStatus := fun _ => OrderStatus.UNFILLED
      orderFiller := fun _ => none }
    balances := fun _ _ => 1000 }

/-- Concrete origin-chain ledger (local domain 1, counterpart registered for
domain 2, sender 1 has nonce counter 3, ample balances). -/
def ledgerOrig : LedgerState :=
  { chain :=
    { localDomain := 1
      counterpart := fun d => if d = 2 then some 88 else none
      settler := 99
      senderNonce := fun a => if a = 1 then 3 else 0
      orders := fun _ => none
      orderStatus := fun _ => OrderStatus.UNFILLED
      orderFiller := fun _ => none }
    balances := fun _ _ => 1000 }

/-- The order `odA` with its fill deadline overridden to 60, as Resolve
returns it when called with fill deadline 60. -/
def odA60 : OrderData := { odA with fillDeadline := 60 }

/-- The resolved view of `odA` on `ledgerOrig` with open deadline 50 and fill
deadline 60. -/
def roA : ResolvedCrossChainOrder :=
  { user := 1
    originChainId := 1
    openDeadline := 50
    fillDeadline := 60
    minReceived := [{ token := 3, amount := 100, recipient := 0, chainId := 1 }]
    maxSpent := [{ token := 4, amount := 95, recipient := 2, chainId := 2 }]
    fillInstructions := [{ destinationChainId := 2, destinationSettler := 88, originData := RawBytes.valid odA }] }

/-- The resolved view produced by `openOrder` (open deadline is
`type(uint32).max`). -/
def roAopen : ResolvedCrossChainOrder := { roA with openDeadline := 2 ^ 32 - 1 }

/-- Concrete onchain order wrapping `odA` with caller-supplied fill
deadline 60. -/
def ordOnchain : OnchainCrossChainOrder :=
  { fillDeadline := 60
    orderDataType := OrderEncoder.orderDataType
    orderData := RawBytes.valid odA }

/-- The storage writes `open` performs before the token transfer. -/
def openWrites (l : LedgerState) (caller : Nat) (od : OrderData) : LedgerState :=
  { l with chain :=
    { l.chain with
      orders := mapUpd l.chain.orders (_getOrderId od) (some od)
      orderStatus := mapUpd l.chain.orderStatus (_getOrderId od) OrderStatus.OPENED
      senderNonce := mapUpd l.chain.senderNonce caller
        (l.chain.senderNonce caller + 1) } }

theorem mapUpd_same {α β : Type} [DecidableEq α] (f : α → β) (k : α) (v : β) :
    mapUpd f k v k = v := by
  simp [mapUpd]

theorem mapUpd_other {α β : Type} [DecidableEq α] (f : α → β) (k x : α) (v : β)
    (h : x ≠ k) : mapUpd f k v x = f x := by
  simp [mapUpd, h]

theorem safeTransferFrom_ok_chain (l l' : LedgerState) (tok src dst amt : Nat)
    (h : safeTransferFrom l tok src dst amt = Except.ok l') :
    l'.chain = l.chain := by
  unfold safeTransferFrom at h
  split at h
  · simp only [Except.ok.injEq] at h
    subst h
    rfl
  · simp at h

theorem safeTransferFrom_ok_balances (l l' : LedgerState) (tok src dst amt : Nat)
    (h : safeTransferFrom l tok src dst amt = Except.ok l') (hne : src ≠ dst) :
    l'.balances tok src = l.balances tok src - amt ∧
    l'.balances tok dst = l.balances tok dst + amt := by
  unfold safeTransferFrom at h
  split at h
  · simp only [Except.ok.injEq] at h
    subst h
    refine ⟨?_, ?_⟩
    · show mapUpd l.balances tok _ tok src = _
      rw [mapUpd_same, mapUpd_other _ _ _ _ hne, mapUpd_same]
    · show mapUpd l.balances tok _ tok dst = _
      rw [mapUpd_same, mapUpd_same, mapUpd_other _ _ _ _ (Ne.symm hne)]
  · simp at h

theorem safeTransferFrom_insufficient (l : LedgerState) (tok src dst amt : Nat)
    (h : ¬ amt ≤ l.balances tok src) :
    safeTransferFrom l tok src dst amt = Except.error SettleError.TransferFromFailed := by
  unfold safeTransferFrom
  rw [if_neg h]

theorem fill_ok_inv (l : LedgerState) (caller : Nat) (oid : OrderId)
    (raw : RawBytes) (t : Nat) (l1 : LedgerState)
    (h : fill l caller oid raw t = Except.ok l1) :
    ∃ od a,
      OrderEncoder.decode raw = Except.ok od ∧
      oid = _getOrderId od ∧
      od.fillDeadline ≤ t ∧
      od.destinationDomain = l.chain.localDomain ∧
      l.chain.counterpart od.originDomain = some a ∧
      l.chain.orderStatus oid = OrderStatus.UNFILLED ∧
      l1.chain.orderStatus = mapUpd l.chain.orderStatus oid OrderStatus.FILLED ∧
      l1.chain.localDomain = l.chain.localDomain ∧
      l1.chain.counterpart = l.chain.counterpart := by
  unfold fill at h
  cases hdec : OrderEncoder.decode raw with
  | error e => rw [hdec] at h; simp at h
  | ok od =>
    rw [hdec] at h
    dsimp only at h
    by_cases h1 : oid ≠ _getOrderId od
    · rw [if_pos h1] at h; simp at h
    · rw [if_neg h1] at h
      by_cases h2 : od.fillDeadline > t
      · rw [if_pos h2] at h; simp at h
      · rw [if_neg h2] at h
        by_cases h3 : od.destinationDomain ≠ l.chain.localDomain
        · rw [if_pos h3] at h; simp at h
        · rw [if_neg h3] at h
          unfold _mustHaveRemoteCounterpart at h
          cases hc : l.chain.counterpart od.originDomain with
          | none => rw [hc] at h; simp at h
          | some a =>
            rw [hc] at h
            dsimp only at h
            by_cases h5 : l.chain.orderStatus oid ≠ OrderStatus.UNFILLED
            · rw [if_pos h5] at h; simp at h
            · rw [if_neg h5] at h
              have hchain := safeTransferFrom_ok_chain _ _ _ _ _ _ h
              exact ⟨od, a, rfl, not_not.mp h1, Nat.le_of_not_lt h2,
                not_not.mp h3, hc, not_not.mp h5,
                by rw [hchain], by rw [hchain], by rw [hchain]⟩

theorem fill_already_filled (l : LedgerState) (caller : Nat) (oid : OrderId)
    (raw : RawBytes) (od : OrderData) (a t : Nat)
    (hdec : OrderEncoder.decode raw = Except.ok od)
    (hid : oid = _getOrderId od)
    (hdl : od.fillDeadline ≤ t)
    (hdom : od.destinationDomain = l.chain.localDomain)
    (hc : l.chain.counterpart od.originDomain = some a)
    (hst : l.chain.orderStatus oid ≠ OrderStatus.UNFILLED) :
    fill l caller oid raw t = Except.error SettleError.InvalidOrderStatus := by
  unfold fill
  rw [hdec]
  dsimp only
  rw [if_neg (not_not_intro hid), if_neg (Nat.not_lt.mpr hdl),
    if_neg (not_not_intro hdom)]
  unfold _mustHaveRemoteCounterpart
  rw [hc]
  dsimp only
  rw [if_pos hst]

/-- C1: the deadline comparison in `fill` is inverted relative to the claimed
semantics.  On a concrete order whose fill deadline (10) is already past at
the current chain time (20) — where the claim requires failure with
`OrderExpired` — `fill` succeeds; at a time (3) strictly before the deadline
— where the claim requires no `OrderExpired` failure — `fill` fails with
`OrderExpired`. -/
theorem fill_deadline_check_inverted :
    (∃ l1, fill ledgerDest 5 (OrderEncoder.id odA) (RawBytes.valid odA) 20 =
      Except.ok l1) ∧
    fill ledgerDest 5 (OrderEncoder.id odA) (RawBytes.valid odA) 3 =
      Except.error SettleError.OrderExpired :=
  ⟨⟨_, rfl⟩, rfl⟩

/-- C2: a `fill` that succeeds finds this chain's status for the order id
`UNFILLED` and leaves it `FILLED`; a second `fill` with the same order id and
origin data then fails with `InvalidOrderStatus` (the `AlreadyFilled`
condition), and — failure being a revert — changes no state; in general
`fill` cannot succeed when the chain's status for the order id is not
`UNFILLED`. -/
theorem fill_exactly_once (l : LedgerState) (caller caller2 : Nat)
    (oid : OrderId) (raw : RawBytes) (t : Nat)
    (h : ∃ l1, fill l caller oid raw t = Except.ok l1) :
    l.chain.orderStatus oid = OrderStatus.UNFILLED ∧
    (∀ l1, fill l caller oid raw t = Except.ok l1 →
      l1.chain.orderStatus oid = OrderStatus.FILLED ∧
      fill l1 caller2 oid raw t = Except.error SettleError.InvalidOrderStatus) ∧
    (∀ (l' : LedgerState) (c : Nat) (oid' : OrderId) (raw' : RawBytes) (t' : Nat),
      l'.chain.orderStatus oid' ≠ OrderStatus.UNFILLED →
      ∀ l1', fill l' c oid' raw' t' ≠ Except.ok l1') := by
  obtain ⟨l1, h1⟩ := h
  obtain ⟨od, a, hdec, hid, hdl, hdom, hc, hst, hfst, hloc, hcp⟩ :=
    fill_ok_inv _ _ _ _ _ _ h1
  refine ⟨hst, ?_, ?_⟩
  · intro l1' h1'
    obtain ⟨od', a', hdec', hid', hdl', hdom', hc', hst', hfst', hloc', hcp'⟩ :=
      fill_ok_inv _ _ _ _ _ _ h1'
    have hf : l1'.chain.orderStatus oid = OrderStatus.FILLED := by
      rw [hfst']
      exact mapUpd_same _ _ _
    refine ⟨hf, ?_⟩
    refine fill_already_filled l1' caller2 oid raw od' a' t hdec' hid' hdl' ?_ ?_ ?_
    · rw [hloc']
      exact hdom'
    · rw [hcp']
      exact hc'
    · rw [hf]
      decide
  · intro l' c oid' raw' t' hne l1'' hok
    obtain ⟨_, _, _, _, _, _, _, hst'', _⟩ := fill_ok_inv _ _ _ _ _ _ hok
    exact hne hst''

/-- Witness for C2: concrete first fill on the destination ledger succeeds and
all the conclusions hold at that input. -/
theorem fill_exactly_once_witness :
    (∃ l1, fill ledgerDest 5 (OrderEncoder.id odA) (RawBytes.valid odA) 20 =
      Except.ok l1) ∧
    (ledgerDest.chain.orderStatus (OrderEncoder.id odA) = OrderStatus.UNFILLED ∧
      (∀ l1, fill ledgerDest 5 (OrderEncoder.id odA) (RawBytes.valid odA) 20 =
          Except.ok l1 →
        l1.chain.orderStatus (OrderEncoder.id odA) = OrderStatus.FILLED ∧
        fill l1 6 (OrderEncoder.id odA) (RawBytes.valid odA) 20 =
          Except.error SettleError.InvalidOrderStatus) ∧
      (∀ (l' : LedgerState) (c : Nat) (oid' : OrderId) (raw' : RawBytes) (t' : Nat),
        l'.chain.orderStatus oid' ≠ OrderStatus.UNFILLED →
        ∀ l1', fill l' c oid' raw' t' ≠ Except.ok l1')) :=
  ⟨⟨_, rfl⟩,
    fill_exactly_once ledgerDest 5 6 (OrderEncoder.id odA) (RawBytes.valid odA) 20
      ⟨_, rfl⟩⟩

theorem _resolvedOrder_ok_inv (s : ChainState) (ot sender : Nat) (raw : RawBytes)
    (odl fdl : Nat) (ro : ResolvedCrossChainOrder) (od : OrderData)
    (h : _resolvedOrder s ot sender raw odl fdl = Except.ok (ro, od)) :
    ∃ od0 a,
      ot = OrderEncoder.orderDataType ∧
      OrderEncoder.decode raw = Except.ok od0 ∧
      od0.originDomain = s.localDomain ∧
      od0.senderNonce = s.senderNonce sender ∧
      s.counterpart od0.destinationDomain = some a ∧
      od = { od0 with fillDeadline := fdl } ∧
      ro = { user := sender
             originChainId := s.localDomain
             openDeadline := odl
             fillDeadline := fdl
             minReceived := [{ token := od0.inputToken, amount := od0.amountIn,
                               recipient := 0, chainId := od0.originDomain }]
             maxSpent := [{ token := od0.outputToken, amount := od0.amountOut,
                            recipient := od0.recipient,
                            chainId := od0.destinationDomain }]
             fillInstructions := [{ destinationChainId := od0.destinationDomain,
                                    destinationSettler := a,
                                    originData := raw }] } := by
  unfold _resolvedOrder at h
  by_cases h1 : ot ≠ OrderEncoder.orderDataType
  · rw [if_pos h1] at h; simp at h
  · rw [if_neg h1] at h
    cases hdec : OrderEncoder.decode raw with
    | error e => rw [hdec] at h; simp at h
    | ok od0 =>
      rw [hdec] at h
      dsimp only at h
      by_cases h2 : od0.originDomain ≠ s.localDomain
      · rw [if_pos h2] at h; simp at h
      · rw [if_neg h2] at h
        by_cases h3 : od0.senderNonce ≠ s.senderNonce sender
        · rw [if_pos h3] at h; simp at h
        · rw [if_neg h3] at h
          unfold _mustHaveRemoteCounterpart at h
          cases hc : s.counterpart od0.destinationDomain with
          | none => rw [hc] at h; simp at h
          | some a =>
            rw [hc] at h
            dsimp only at h
            simp only [Except.ok.injEq, Prod.mk.injEq] at h
            obtain ⟨hro, hod⟩ := h
            exact ⟨od0, a, not_not.mp h1, rfl, not_not.mp h2, not_not.mp h3,
              hc, hod.symm, hro.symm⟩

theorem _resolvedOrder_nonce_fail (s : ChainState) (ot sender : Nat)
    (raw : RawBytes) (od0 : OrderData) (odl fdl : Nat)
    (hot : ot = OrderEncoder.orderDataType)
    (hdec : OrderEncoder.decode raw = Except.ok od0)
    (hdom : od0.originDomain = s.localDomain)
    (hne : od0.senderNonce ≠ s.senderNonce sender) :
    _resolvedOrder s ot sender raw odl fdl =
      Except.error SettleError.InvalidSenderNonce := by
  unfold _resolvedOrder
  rw [if_neg (not_not_intro hot), hdec]
  dsimp only
  rw [if_neg (not_not_intro hdom), if_pos hne]

/-- C3: Resolve succeeds only when the decoded order's `senderNonce` equals
the sender's current counter on this chain, and fails with
`InvalidSenderNonce` (`NonceMismatch`) for every other value — a strict
equality check. -/
theorem resolve_nonce_strict (s : ChainState) (ot sender : Nat) (raw : RawBytes)
    (od0 : OrderData) (odl fdl : Nat)
    (hdec : OrderEncoder.decode raw = Except.ok od0) :
    (∀ ro od, _resolvedOrder s ot sender raw odl fdl = Except.ok (ro, od) →
      od0.senderNonce = s.senderNonce sender) ∧
    (ot = OrderEncoder.orderDataType → od0.originDomain = s.localDomain →
      od0.senderNonce ≠ s.senderNonce sender →
      _resolvedOrder s ot sender raw odl fdl =
        Except.error SettleError.InvalidSenderNonce) := by
  constructor
  · intro ro od h
    obtain ⟨od0', _, _, hdec', _, hnonce, _⟩ :=
      _resolvedOrder_ok_inv _ _ _ _ _ _ _ _ h
    have heq := hdec.symm.trans hdec'
    simp only [Except.ok.injEq] at heq
    subst heq
    exact hnonce
  · intro hot hdom hne
    exact _resolvedOrder_nonce_fail s ot sender raw od0 odl fdl hot hdec hdom hne

/-- Witness for C3: with the sender's counter at 3, an order carrying
`senderNonce = 3` resolves, while `senderNonce = 2` and `senderNonce = 4`
both fail with `InvalidSenderNonce`. -/
theorem resolve_nonce_strict_witness :
    OrderEncoder.decode (RawBytes.valid { odA with senderNonce := 2 }) =
      Except.ok { odA with senderNonce := 2 } ∧
    ledgerOrig.chain.senderNonce 1 = 3 ∧
    _resolvedOrder ledgerOrig.chain OrderEncoder.orderDataType 1
      (RawBytes.valid { odA with senderNonce := 2 }) 50 60 =
      Except.error SettleError.InvalidSenderNonce ∧
    _resolvedOrder ledgerOrig.chain OrderEncoder.orderDataType 1
      (RawBytes.valid { odA with senderNonce := 4 }) 50 60 =
      Except.error SettleError.InvalidSenderNonce ∧
    (∃ res, _resolvedOrder ledgerOrig.chain OrderEncoder.orderDataType 1
      (RawBytes.valid odA) 50 60 = Except.ok res) :=
  ⟨rfl, rfl,
    (resolve_nonce_strict ledgerOrig.chain OrderEncoder.orderDataType 1
      (RawBytes.valid { odA with senderNonce := 2 }) { odA with senderNonce := 2 }
      50 60 rfl).2 rfl rfl (by decide),
    (resolve_nonce_strict ledgerOrig.chain OrderEncoder.orderDataType 1
      (RawBytes.valid { odA with senderNonce := 4 }) { odA with senderNonce := 4 }
      50 60 rfl).2 rfl rfl (by decide),
    ⟨_, rfl⟩⟩

/-- C4: when the supplied order id differs from the id recomputed from the
decoded origin data, `fill` fails with `InvalidOrderId` (`OrderIdMismatch`);
failure is a revert, so no state is mutated. -/
theorem fill_orderId_mismatch (l : LedgerState) (caller : Nat) (oid : OrderId)
    (raw : RawBytes) (od : OrderData) (t : Nat)
    (hdec : OrderEncoder.decode raw = Except.ok od)
    (hne : oid ≠ _getOrderId od) :
    fill l caller oid raw t = Except.error SettleError.InvalidOrderId := by
  unfold fill
  rw [hdec]
  dsimp only
  rw [if_pos hne]

/-- Witness for C4: an order id derived from a tampered record (amountOut
changed) is rejected by `fill` with `InvalidOrderId`. -/
theorem fill_orderId_mismatch_witness :
    OrderEncoder.decode (RawBytes.valid odA) = Except.ok odA ∧
    OrderEncoder.id { odA with amountOut := 96 } ≠ _getOrderId odA ∧
    fill ledgerDest 5 (OrderEncoder.id { odA with amountOut := 96 })
      (RawBytes.valid odA) 20 = Except.error SettleError.InvalidOrderId :=
  ⟨rfl, by decide,
    fill_orderId_mismatch ledgerDest 5 (OrderEncoder.id { odA with amountOut := 96 })
      (RawBytes.valid odA) odA 20 rfl (by decide)⟩

/-- C5: every successful Resolve yields exactly one `minReceived` entry (the
input token, `amountIn`, the origin chain id), exactly one `maxSpent` entry
(the output token, `amountOut`, the recipient, the destination chain id) and
exactly one `FillInstruction` (the destination chain id, the registered
destination counterpart, the original raw order bytes). -/
theorem resolve_legs (s : ChainState) (ot sender : Nat) (raw : RawBytes)
    (odl fdl : Nat) (ro : ResolvedCrossChainOrder) (od : OrderData)
    (h : _resolvedOrder s ot sender raw odl fdl = Except.ok (ro, od)) :
    ro.minReceived = [{ token := od.inputToken, amount := od.amountIn,
                        recipient := 0, chainId := od.originDomain }] ∧
    ro.maxSpent = [{ token := od.outputToken, amount := od.amountOut,
                     recipient := od.recipient, chainId := od.destinationDomain }] ∧
    ∃ a, s.counterpart od.destinationDomain = some a ∧
      ro.fillInstructions = [{ destinationChainId := od.destinationDomain,
                               destinationSettler := a, originData := raw }] := by
  obtain ⟨od0, a, _, _, _, _, hc, hod, hro⟩ :=
    _resolvedOrder_ok_inv _ _ _ _ _ _ _ _ h
  subst hod hro
  exact ⟨rfl, rfl, a, hc, rfl⟩

/-- Witness for C5: the spec scenario — `originDomain = 1`,
`destinationDomain = 2`, `amountIn = 100`, `amountOut = 95` resolved on chain
1 with a counterpart registered for domain 2 yields one `minReceived` entry
with chainId 1 and amount 100 and one `maxSpent` entry with chainId 2 and
amount 95. -/
theorem resolve_legs_witness :
    _resolvedOrder ledgerOrig.chain OrderEncoder.orderDataType 1
      (RawBytes.valid odA) 50 60 = Except.ok (roA, odA60) ∧
    roA.minReceived = [{ token := 3, amount := 100, recipient := 0, chainId := 1 }] ∧
    roA.maxSpent = [{ token := 4, amount := 95, recipient := 2, chainId := 2 }] ∧
    (∃ a, ledgerOrig.chain.counterpart odA60.destinationDomain = some a ∧
      roA.fillInstructions = [{ destinationChainId := 2, destinationSettler := a, originData := RawBytes.valid odA }]) :=
  ⟨rfl,
    (resolve_legs ledgerOrig.chain OrderEncoder.orderDataType 1
      (RawBytes.valid odA) 50 60 roA odA60 rfl).1,
    (resolve_legs ledgerOrig.chain OrderEncoder.orderDataType 1
      (RawBytes.valid odA) 50 60 roA odA60 rfl).2.1,
    (resolve_legs ledgerOrig.chain OrderEncoder.orderDataType 1
      (RawBytes.valid odA) 50 60 roA odA60 rfl).2.2⟩

/-- C6: Resolve replaces the fill deadline embedded in the decoded record
with the caller-supplied value: both the returned order record and the
`ResolvedCrossChainOrder` carry exactly the argument passed in. -/
theorem resolve_overrides_fillDeadline (s : ChainState) (ot sender : Nat)
    (raw : RawBytes) (odl fdl : Nat) (ro : ResolvedCrossChainOrder)
    (od : OrderData)
    (h : _resolvedOrder s ot sender raw odl fdl = Except.ok (ro, od)) :
    od.fillDeadline = fdl ∧ ro.fillDeadline = fdl := by
  obtain ⟨od0, a, _, _, _, _, _, hod, hro⟩ :=
    _resolvedOrder_ok_inv _ _ _ _ _ _ _ _ h
  subst hod hro
  exact ⟨rfl, rfl⟩

/-- Witness for C6: the raw bytes embed fill deadline 10, Resolve is called
with 60, and both the stored record and the resolved order carry 60. -/
theorem resolve_overrides_fillDeadline_witness :
    odA.fillDeadline = 10 ∧
    _resolvedOrder ledgerOrig.chain OrderEncoder.orderDataType 1
      (RawBytes.valid odA) 50 60 = Except.ok (roA, odA60) ∧
    (odA60.fillDeadline = 60 ∧ roA.fillDeadline = 60) :=
  ⟨rfl, rfl,
    resolve_overrides_fillDeadline ledgerOrig.chain OrderEncoder.orderDataType 1
      (RawBytes.valid odA) 50 60 roA odA60 rfl⟩

theorem openOrder_eq (l : LedgerState) (caller : Nat)
    (order : OnchainCrossChainOrder) (ro : ResolvedCrossChainOrder)
    (od : OrderData)
    (hres : _resolvedOrder l.chain order.orderDataType caller order.orderData
      (2 ^ 32 - 1) order.fillDeadline = Except.ok (ro, od)) :
    openOrder l caller order =
      (match safeTransferFrom (openWrites l caller od) od.inputToken caller
          l.chain.settler od.amountIn with
       | Except.error e => Except.error e
       | Except.ok l2 => Except.ok (l2, _getOrderId od, ro)) := by
  unfold openOrder
  rw [hres]
  rfl

/-- C7: `open`/`openFor` propagate every Resolve failure unchanged (a revert,
so no state change); on Resolve success `open` records the order under the
resulting id, sets the status to `OPENED`, bumps the caller's sender nonce by
one and pulls `amountIn` of the input token from the caller to the contract,
and when that transfer cannot complete the whole call reverts, so none of the
writes survive; `openFor` performs the same writes for the order's user (its
funding step is a TODO in the source, so it moves no tokens). -/
theorem open_atomic (l : LedgerState) (caller : Nat)
    (order : OnchainCrossChainOrder) :
    (∀ e, _resolvedOrder l.chain order.orderDataType caller order.orderData
        (2 ^ 32 - 1) order.fillDeadline = Except.error e →
      openOrder l caller order = Except.error e) ∧
    (∀ ro od, _resolvedOrder l.chain order.orderDataType caller order.orderData
        (2 ^ 32 - 1) order.fillDeadline = Except.ok (ro, od) →
      (od.amountIn ≤ l.balances od.inputToken caller →
        ∃ l2, openOrder l caller order = Except.ok (l2, _getOrderId od, ro) ∧
          l2.chain.orders (_getOrderId od) = some od ∧
          l2.chain.orderStatus (_getOrderId od) = OrderStatus.OPENED ∧
          l2.chain.senderNonce caller = l.chain.senderNonce caller + 1 ∧
          (caller ≠ l.chain.settler →
            l2.balances od.inputToken caller =
              l.balances od.inputToken caller - od.amountIn ∧
            l2.balances od.inputToken l.chain.settler =
              l.balances od.inputToken l.chain.settler + od.amountIn)) ∧
      (¬ od.amountIn ≤ l.balances od.inputToken caller →
        openOrder l caller order =
          Except.error SettleError.TransferFromFailed)) ∧
    (∀ (g : GaslessCrossChainOrder) e,
      _resolvedOrder l.chain g.orderDataType g.user g.orderData
        g.openDeadline g.fillDeadline = Except.error e →
      openFor l g = Except.error e) ∧
    (∀ (g : GaslessCrossChainOrder) ro od,
      _resolvedOrder l.chain g.orderDataType g.user g.orderData
        g.openDeadline g.fillDeadline = Except.ok (ro, od) →
      ∃ l2, openFor l g = Except.ok (l2, _getOrderId od, ro) ∧
        l2.chain.orders (_getOrderId od) = some od ∧
        l2.chain.orderStatus (_getOrderId od) = OrderStatus.OPENED ∧
        l2.chain.senderNonce g.user = l.chain.senderNonce g.user + 1) := by
  refine ⟨?_, ?_, ?_, ?_⟩
  · intro e herr
    unfold openOrder
    rw [herr]
  · intro ro od hres
    constructor
    · intro hbal
      cases hst : safeTransferFrom (openWrites l caller od) od.inputToken caller
          l.chain.settler od.amountIn with
      | error e =>
        have hbal2 : od.amountIn ≤
            (openWrites l caller od).balances od.inputToken caller := hbal
        unfold safeTransferFrom at hst
        rw [if_pos hbal2] at hst
        simp at hst
      | ok l2 =>
        have hchain := safeTransferFrom_ok_chain _ _ _ _ _ _ hst
        refine ⟨l2, ?_, ?_, ?_, ?_, ?_⟩
        · rw [openOrder_eq l caller order ro od hres, hst]
        · rw [hchain]
          exact mapUpd_same _ _ _
        · rw [hchain]
          exact mapUpd_same _ _ _
        · rw [hchain]
          exact mapUpd_same _ _ _
        · intro hns
          exact safeTransferFrom_ok_balances (openWrites l caller od) l2
            od.inputToken caller l.chain.settler od.amountIn hst hns
    · intro hnb
      rw [openOrder_eq l caller order ro od hres,
        safeTransferFrom_insufficient (openWrites l caller od) od.inputToken
          caller l.chain.settler od.amountIn hnb]
  · intro g e herr
    unfold openFor
    rw [herr]
  · intro g ro od hres
    unfold openFor
    rw [hres]
    dsimp only
    refine ⟨_, rfl, ?_, ?_, ?_⟩
    · exact mapUpd_same _ _ _
    · exact mapUpd_same _ _ _
    · exact mapUpd_same _ _ _

/-- Witness for C7: opening `ordOnchain` on the origin ledger succeeds, the
order is recorded `OPENED` under its id, the sender nonce advances from 3 to
4 and 100 tokens move from the caller to the contract. -/
theorem open_atomic_witness :
    _resolvedOrder ledgerOrig.chain ordOnchain.orderDataType 1
      ordOnchain.orderData (2 ^ 32 - 1) ordOnchain.fillDeadline =
      Except.ok (roAopen, odA60) ∧
    odA60.amountIn ≤ ledgerOrig.balances odA60.inputToken 1 ∧
    (∃ l2, openOrder ledgerOrig 1 ordOnchain =
        Except.ok (l2, _getOrderId odA60, roAopen) ∧
      l2.chain.orders (_getOrderId odA60) = some odA60 ∧
      l2.chain.orderStatus (_getOrderId odA60) = OrderStatus.OPENED ∧
      l2.chain.senderNonce 1 = ledgerOrig.chain.senderNonce 1 + 1 ∧
      (1 ≠ ledgerOrig.chain.settler →
        l2.balances odA60.inputToken 1 =
          ledgerOrig.balances odA60.inputToken 1 - odA60.amountIn ∧
        l2.balances odA60.inputToken ledgerOrig.chain.settler =
          ledgerOrig.balances odA60.inputToken ledgerOrig.chain.settler +
            odA60.amountIn)) :=
  ⟨rfl, by decide,
    ((open_atomic ledgerOrig 1 ordOnchain).2.1 roAopen odA60 rfl).1 (by decide)⟩

/-- C8: constructing the signing environment fails with the fatal
configuration error exactly when neither a truthy private key nor a truthy
mnemonic is supplied; with a truthy private key the signer is built from the
(0x-prefixed) private key, otherwise from the mnemonic. -/
theorem getMultiProvider_credentials (pk mn : Option String) :
    (jsTruthy pk = false → jsTruthy mn = false →
      getMultiProvider pk mn = Except.error ConfigError.MissingCredential) ∧
    (jsTruthy pk = true →
      getMultiProvider pk mn =
        Except.ok (NonceKeeperWallet.fromPrivateKey (ensure0x (pk.getD "")))) ∧
    (jsTruthy pk = false → jsTruthy mn = true →
      getMultiProvider pk mn =
        Except.ok (NonceKeeperWallet.fromMnemonic (mn.getD ""))) := by
  refine ⟨?_, ?_, ?_⟩
  · intro h1 h2
    unfold getMultiProvider
    rw [h1, h2]
    rfl
  · intro h1
    unfold getMultiProvider
    rw [h1]
    rfl
  · intro h1 h2
    unfold getMultiProvider
    rw [h1, h2]
    rfl

/-- Witness for C8: no credential at all is a fatal configuration error; a
private key alone builds the signer from the key; a mnemonic alone builds it
from the mnemonic. -/
theorem getMultiProvider_credentials_witness :
    jsTruthy (some "sk") = true ∧
    getMultiProvider (some "sk") none =
      Except.ok (NonceKeeperWallet.fromPrivateKey (ensure0x "sk")) ∧
    getMultiProvider none none = Except.error ConfigError.MissingCredential ∧
    getMultiProvider none (some "mnemonic words") =
      Except.ok (NonceKeeperWallet.fromMnemonic "mnemonic words") :=
  ⟨rfl,
    (getMultiProvider_credentials (some "sk") none).2.1 rfl,
    (getMultiProvider_credentials none none).1 rfl rfl,
    (getMultiProvider_credentials none (some "mnemonic words")).2.2 rfl rfl⟩

theorem allocateN_eq_range (k n : Nat) :
    (NonceCache.allocateN { next := k } n).1 = List.range' k n := by
  induction n generalizing k with
  | zero => rfl
  | succ n ih =>
    simp only [NonceCache.allocateN, NonceCache.allocate, List.range'_succ]
    rw [ih]

/-- C9: under the serialization the keeper enforces, N allocation requests
for one (signer, chain) pair starting from cached value k return exactly the
numbers k, k+1, ..., k+N-1 — each number at least k and below k+N, no
duplicates, handed out in strictly increasing order — and a submission that
fails before acceptance releases its number, so the very next allocation
returns the same number again. -/
theorem nonce_keeper_sequencing (k n : Nat) :
    (∀ m, m ∈ (NonceCache.allocateN { next := k } n).1 ↔ k ≤ m ∧ m < k + n) ∧
    (NonceCache.allocateN { next := k } n).1.Nodup ∧
    (NonceCache.allocateN { next := k } n).1.Sorted (· < ·) ∧
    (∀ c : NonceCache, ((c.submit false).2).allocate.1 = c.allocate.1) ∧
    (∀ c : NonceCache, ((c.submit true).2).next = c.next + 1) := by
  refine ⟨?_, ?_, ?_, ?_, ?_⟩
  · intro m
    rw [allocateN_eq_range]
    exact List.mem_range'_1
  · rw [allocateN_eq_range]
    exact List.nodup_range' k n 1 Nat.one_pos
  · rw [allocateN_eq_range]
    exact List.pairwise_lt_range' k n 1 Nat.one_pos
  · intro c
    rfl
  · intro c
    rfl

/-- Witness for C9: from cached value 5, four serialized allocations return
exactly 5, 6, 7, 8, and after a failed submission the next allocation
returns 5 again. -/
theorem nonce_keeper_sequencing_witness :
    ((5 : Nat) ∈ (NonceCache.allocateN { next := 5 } 4).1 ↔ 5 ≤ 5 ∧ 5 < 5 + 4) ∧
    (NonceCache.allocateN { next := 5 } 4).1 = [5, 6, 7, 8] ∧
    (NonceCache.allocateN { next := 5 } 4).1.Nodup ∧
    (({ next := 5 } : NonceCache).submit false).2.allocate.1 =
      ({ next := 5 } : NonceCache).allocate.1 :=
  ⟨(nonce_keeper_sequencing 5 4).1 5, by decide,
    (nonce_keeper_sequencing 5 4).2.1,
    (nonce_keeper_sequencing 5 4).2.2.2.1 { next := 5 }⟩

theorem openOrder_ok_inv (l : LedgerState) (caller : Nat)
    (order : OnchainCrossChainOrder) (l2 : LedgerState) (oid : OrderId)
    (ro : ResolvedCrossChainOrder)
    (h : openOrder l caller order = Except.ok (l2, oid, ro)) :
    ∃ od, _resolvedOrder l.chain order.orderDataType caller order.orderData
        (2 ^ 32 - 1) order.fillDeadline = Except.ok (ro, od) ∧
      oid = _getOrderId od := by
  unfold openOrder at h
  cases hres : _resolvedOrder l.chain order.orderDataType caller order.orderData
      (2 ^ 32 - 1) order.fillDeadline with
  | error e => rw [hres] at h; simp at h
  | ok p =>
    rw [hres] at h
    obtain ⟨ro', od⟩ := p
    dsimp only at h
    split at h
    · simp at h
    · rename_i l2' hst
      simp only [Except.ok.injEq, Prod.mk.injEq] at h
      obtain ⟨h1, h2, h3⟩ := h
      subst h3
      exact ⟨od, rfl, h2.symm⟩

theorem openFor_ok_inv (l : LedgerState) (g : GaslessCrossChainOrder)
    (l2 : LedgerState) (oid : OrderId) (ro : ResolvedCrossChainOrder)
    (h : openFor l g = Except.ok (l2, oid, ro)) :
    ∃ od, _resolvedOrder l.chain g.orderDataType g.user g.orderData
        g.openDeadline g.fillDeadline = Except.ok (ro, od) ∧
      oid = _getOrderId od := by
  unfold openFor at h
  cases hres : _resolvedOrder l.chain g.orderDataType g.user g.orderData
      g.openDeadline g.fillDeadline with
  | error e => rw [hres] at h; simp at h
  | ok p =>
    rw [hres] at h
    obtain ⟨ro', od⟩ := p
    dsimp only at h
    simp only [Except.ok.injEq, Prod.mk.injEq] at h
    obtain ⟨h1, h2, h3⟩ := h
    subst h3
    exact ⟨od, rfl, h2.symm⟩

/-- C10: the id under which `open` and `openFor` record an order is the id of
the decoded record with its fill deadline overwritten by the caller-supplied
value — when that value differs from the embedded one, a different id than
the id of the plain decoded record — whereas `fill` on the destination chain
only accepts the id of the plain decoded record, recomputed from the same
raw bytes. -/
theorem open_records_overridden_id (l : LedgerState) (caller : Nat)
    (order : OnchainCrossChainOrder) (od0 : OrderData)
    (hdec : OrderEncoder.decode order.orderData = Except.ok od0) :
    (∀ l2 oid ro, openOrder l caller order = Except.ok (l2, oid, ro) →
      oid = OrderEncoder.id { od0 with fillDeadline := order.fillDeadline } ∧
      (order.fillDeadline ≠ od0.fillDeadline → oid ≠ OrderEncoder.id od0)) ∧
    (∀ (g : GaslessCrossChainOrder), g.orderData = order.orderData →
      ∀ l2 oid ro, openFor l g = Except.ok (l2, oid, ro) →
        oid = OrderEncoder.id { od0 with fillDeadline := g.fillDeadline }) ∧
    (∀ (l' : LedgerState) (c : Nat) (oid' : OrderId) (t : Nat)
        (l1 : LedgerState),
      fill l' c oid' order.orderData t = Except.ok l1 →
      oid' = OrderEncoder.id od0) := by
  refine ⟨?_, ?_, ?_⟩
  · intro l2 oid ro h
    obtain ⟨od, hres, hoid⟩ := openOrder_ok_inv _ _ _ _ _ _ h
    obtain ⟨od0', _, _, hdec', _, _, _, hod, _⟩ :=
      _resolvedOrder_ok_inv _ _ _ _ _ _ _ _ hres
    have heq := hdec.symm.trans hdec'
    simp only [Except.ok.injEq] at heq
    subst heq
    subst hod
    refine ⟨hoid, ?_⟩
    intro hne hcontra
    apply hne
    have hrec : ({ od0 with fillDeadline := order.fillDeadline } : OrderData) = od0 :=
      hoid.symm.trans hcontra
    exact congrArg OrderData.fillDeadline hrec
  · intro g hg l2 oid ro h
    obtain ⟨od, hres, hoid⟩ := openFor_ok_inv _ _ _ _ _ h
    obtain ⟨od0', _, _, hdec', _, _, _, hod, _⟩ :=
      _resolvedOrder_ok_inv _ _ _ _ _ _ _ _ hres
    rw [hg] at hdec'
    have heq := hdec.symm.trans hdec'
    simp only [Except.ok.injEq] at heq
    subst heq
    subst hod
    exact hoid
  · intro l' c oid' t l1 h
    obtain ⟨od, _, hdec', hid, _⟩ := fill_ok_inv _ _ _ _ _ _ h
    have heq := hdec.symm.trans hdec'
    simp only [Except.ok.injEq] at heq
    subst heq
    exact hid

/-- Witness for C10: opening `odA` (embedded deadline 10) with caller
deadline 60 records it under the id of the overridden record, which differs
from the id `fill` recomputes from the same raw bytes. -/
theorem open_records_overridden_id_witness :
    OrderEncoder.decode ordOnchain.orderData = Except.ok odA ∧
    OrderEncoder.id odA60 ≠ OrderEncoder.id odA ∧
    (∀ l2 oid ro, openOrder ledgerOrig 1 ordOnchain = Except.ok (l2, oid, ro) →
      oid = OrderEncoder.id { odA with fillDeadline := ordOnchain.fillDeadline } ∧
      (ordOnchain.fillDeadline ≠ odA.fillDeadline → oid ≠ OrderEncoder.id odA)) ∧
    (∀ (l' : LedgerState) (c : Nat) (oid' : OrderId) (t : Nat)
        (l1 : LedgerState),
      fill l' c oid' ordOnchain.orderData t = Except.ok l1 →
      oid' = OrderEncoder.id odA) :=
  ⟨rfl, by decide,
    (open_records_overridden_id ledgerOrig 1 ordOnchain odA rfl).1,
    (open_records_overridden_id ledgerOrig 1 ordOnchain odA rfl).2.2⟩

end Intents
